import Mathlib

/-!
Verification of the skate scheduling engine.

The definitions below are a shallow embedding of `src/scheduler.rs` and the
data model it consumes (`src/skatelet/system.rs`, and the collaborators it
imports from `crate::state`, `crate::ssh`, `crate::skate`, which are not part
of the provided sources and are therefore modelled from the specification).
Rust `Option<T>` becomes `Option T`, `Result<T, E>` becomes `Except E T`,
`HashMap<String, String>` becomes an association list, and the async effects
of the dispatcher (remote calls, stderr logging) are made explicit as a call
trace and a log trace in the dispatcher's return value.
-/

namespace Skate

/-- Container info reported by podman (src/skatelet/system.rs, `PodmanContainerInfo`). -/
structure PodmanContainerInfo where
  id : String
  names : String
  status : String
  restart_count : Option Nat
deriving DecidableEq, Repr

/-- A pod instance observed on a node (src/skatelet/system.rs, `PodmanPodInfo`).
`labels` models the Rust `HashMap<String, String>` as an association list and
`created` abstracts the timestamp. -/
structure PodmanPodInfo where
  id : String
  name : String
  status : String
  created : Int
  labels : List (String × String)
  containers : List PodmanContainerInfo
deriving DecidableEq, Repr

/-- src/skatelet/system.rs, `PodmanPodInfo::namespace`: the value of the
`skate.io/namespace` label, or the empty string when the label is absent. -/
def PodmanPodInfo.«namespace» (p : PodmanPodInfo) : String :=
  (p.labels.lookup "skate.io/namespace").getD ""

/-- src/skatelet/system.rs, `PodmanPodInfo::deployment`: the value of the
`skate.io/deployment` label, or the empty string when the label is absent. -/
def PodmanPodInfo.deployment (p : PodmanPodInfo) : String :=
  (p.labels.lookup "skate.io/deployment").getD ""

/-- Node telemetry (src/skatelet/system.rs, `SystemInfo`).  The platform field
is irrelevant to scheduling and is omitted; the numeric fields are kept as
plain data. -/
structure SystemInfo where
  total_memory_mib : Nat
  used_memory_mib : Nat
  total_swap_mib : Nat
  used_swap_mib : Nat
  num_cpus : Nat
  pods : Option (List PodmanPodInfo)
deriving DecidableEq, Repr

/-- Modelled from the spec: `HostInfoResponse` lives in `src/ssh.rs`, which is
not among the provided sources.  Spec §3: a node carries optional last-known
telemetry; the scheduler only reads its `system_info`. -/
structure HostInfoResponse where
  system_info : Option SystemInfo
deriving DecidableEq, Repr

/-- Modelled from the spec (§3 Node State): health status of a node. -/
inductive NodeStatus where
  | Healthy
  | Unhealthy
deriving DecidableEq, Repr

/-- Modelled from the spec: `NodeState` lives in `src/state/state.rs`, which is
not among the provided sources.  Spec §3: node identifier, health status,
optional telemetry.  `src/scheduler.rs` reads `.node_name` and `.host_info`. -/
structure NodeState where
  node_name : String
  status : NodeStatus
  host_info : Option HostInfoResponse
deriving DecidableEq, Repr

/-- Modelled from the spec: `ClusterState` lives in `src/state/state.rs`, which
is not among the provided sources.  Spec §3: an ordered list of node states. -/
structure ClusterState where
  nodes : List NodeState
deriving DecidableEq, Repr

/-- The pod instances of a node's last telemetry, or `[]` when any link of the
telemetry chain is absent.  This mirrors the access pattern
`n.host_info.clone()?.system_info?.pods.unwrap_or_default()` used across the
repository (src/get.rs line 87, src/get/deployment.rs line 47). -/
def nodePods (n : NodeState) : List PodmanPodInfo :=
  ((n.host_info.bind fun h => h.system_info).bind fun si => si.pods).getD []

/-- Modelled from the spec: `ClusterState::locate_pod` lives in
`src/state/state.rs`, which is not among the provided sources.  Spec §4.1: scan
every node's pod instances; for a Pod resource the match is by derived identity
(instance name and namespace label); absent when no instance matches. -/
def ClusterState.locate_pod (state : ClusterState) (name ns : String) :
    Option (PodmanPodInfo × NodeState) :=
  state.nodes.findSome? fun n =>
    ((nodePods n).find? fun p => p.name == name && p.«namespace» == ns).map fun p => (p, n)

/-- All (pod instance, node) pairs matching a deployment identity, in snapshot
iteration order. -/
def deploymentMatches (state : ClusterState) (name ns : String) :
    List (PodmanPodInfo × NodeState) :=
  state.nodes.flatMap fun n =>
    ((nodePods n).filter fun p => p.deployment == name && p.«namespace» == ns).map fun p => (p, n)

/-- Modelled from the spec: `ClusterState::locate_deployment` lives in
`src/state/state.rs`, which is not among the provided sources.  Spec §4.1: for
a Deployment resource, collect all pod instances across all nodes whose
deployment-group label and namespace label equal the resource's name and
namespace, regardless of node; absent when no instance matches anywhere.  The
single reported node is the one hosting the first matching instance. -/
def ClusterState.locate_deployment (state : ClusterState) (name ns : String) :
    Option (List PodmanPodInfo × NodeState) :=
  match deploymentMatches state name ns with
  | [] => none
  | (_, n) :: _ => some ((deploymentMatches state name ns).map Prod.fst, n)

/-- Modelled from the spec: the k8s `ObjectMeta` carried by resources (the
`k8s_openapi` crate is external).  Spec §3: identity metadata consists of name,
namespace and a label map; `src/scheduler.rs` reads `metadata.name` and
`metadata.namespace`. -/
structure ObjectMeta where
  name : Option String
  «namespace» : Option String
  labels : Option (List (String × String))
deriving DecidableEq, Repr

/-- Modelled from the spec: the Pod manifest structure (external crate);
only its metadata is consulted by the scheduler. -/
structure Pod where
  metadata : ObjectMeta
deriving DecidableEq, Repr

/-- Modelled from the spec: the Deployment manifest structure (external crate);
only its metadata is consulted by the scheduler. -/
structure Deployment where
  metadata : ObjectMeta
deriving DecidableEq, Repr

/-- Modelled from the spec: `SupportedResources` lives in `src/skate.rs`, which
is not among the provided sources.  Spec §3: a tagged union over the supported
kinds Pod and Deployment. -/
inductive SupportedResources where
  | Pod (p : Pod)
  | Deployment (d : Deployment)
deriving DecidableEq, Repr

/-- src/scheduler.rs, `Status`. -/
inductive Status where
  | Scheduled (detail : String)
  | Error (message : String)
deriving DecidableEq, Repr

/-- src/scheduler.rs, `ScheduleResult`. -/
structure ScheduleResult where
  object : SupportedResources
  node_name : String
  status : Status
deriving DecidableEq, Repr

/-- src/scheduler.rs, `ResourceAndNode`. -/
structure ResourceAndNode (T : Type) where
  resource : T
  node : NodeState
deriving DecidableEq, Repr

/-- src/scheduler.rs, `ExistingResource`. -/
inductive ExistingResource where
  | Pod (r : ResourceAndNode PodmanPodInfo)
  | Deployment (r : ResourceAndNode (List PodmanPodInfo))
deriving DecidableEq, Repr

/-- src/scheduler.rs, `ApplyPlan`. -/
structure ApplyPlan where
  current : Option ExistingResource
  next : Option NodeState

/-- The candidate node load computed inside the placement fold
(src/scheduler.rs lines 77–81): the pod count of the node's telemetry through
`and_then`, with `unwrap_or(0)` when any link is absent. -/
def nodeLoad (node : NodeState) : Nat :=
  ((node.host_info.bind fun h => h.system_info).bind fun si =>
    si.pods.map fun p => p.length).getD 0

/-- One step of the placement fold in `DefaultScheduler::plan`
(src/scheduler.rs lines 83–95): keep the running best only when its own
telemetry is fully present and its pod count is strictly smaller than the
candidate's load; in every other case the candidate becomes the new best. -/
def foldStep (maybe_prev_node : Option NodeState) (node : NodeState) : Option NodeState :=
  let node_pods := nodeLoad node
  (maybe_prev_node.bind fun prev_node =>
    prev_node.host_info.bind fun h =>
      h.system_info.bind fun si =>
        si.pods.bind fun prev_pods =>
          some (match compare prev_pods.length node_pods with
            | Ordering.lt => prev_node
            | Ordering.eq => node
            | Ordering.gt => node)).orElse fun _ => some node

/-- The existing-resource lookup of `DefaultScheduler::plan`
(src/scheduler.rs lines 52–67): derive the identity from the resource's
metadata, defaulting missing name or namespace to the empty string, and locate
the resource in the snapshot. -/
def locateExisting (state : ClusterState) (object : SupportedResources) :
    Option ExistingResource :=
  match object with
  | SupportedResources.Pod p =>
    let name := p.metadata.name.getD ""
    let ns := p.metadata.«namespace».getD ""
    (state.locate_pod name ns).map fun rn =>
      ExistingResource.Pod { resource := rn.1, node := rn.2 }
  | SupportedResources.Deployment d =>
    let name := d.metadata.name.getD ""
    let ns := d.metadata.«namespace».getD ""
    (state.locate_deployment name ns).map fun rn =>
      ExistingResource.Deployment { resource := rn.1, node := rn.2 }

/-- src/scheduler.rs lines 68–74: the node currently hosting the located
resource, if any. -/
def existingNode : Option ExistingResource → Option NodeState
  | some (ExistingResource.Deployment r) => some r.node
  | some (ExistingResource.Pod r) => some r.node
  | none => none

/-- src/scheduler.rs, `DefaultScheduler::plan` (lines 51–101): locate the
existing copy of the resource, then fold the placement step over the snapshot
nodes starting from the currently hosting node. -/
def plan (state : ClusterState) (object : SupportedResources) : ApplyPlan :=
  let existing_resource := locateExisting state object
  let current_node := existingNode existing_resource
  { current := existing_resource
    next := state.nodes.foldl foldStep current_node }

/-- Whether a node's telemetry chain is fully present (host info, system info
and pod list). -/
def hasTelemetry (n : NodeState) : Bool :=
  ((n.host_info.bind fun h => h.system_info).bind fun si => si.pods).isSome

/-- Modelled from the spec: `SshClient` lives in `src/ssh.rs`, which is not
among the provided sources.  Spec §6: a per-node channel whose apply operation
takes the manifest text and returns either (stdout, stderr) or a failure whose
message is a string. -/
structure SshClient where
  apply_resource : String → Except String (String × String)

/-- Modelled from the spec: `SshClients` lives in `src/ssh.rs`, which is not
among the provided sources.  Spec §6: the Fleet resolves a node name to a
channel, or to absent. -/
structure SshClients where
  find : String → Option SshClient

/-- Model of the external `serde_yaml::to_string` serializer used by the
dispatcher (src/scheduler.rs line 108): an abstract serialization that either
yields the manifest text or fails with a message (the Rust code turns the
error into a string with `format!`). -/
structure SerdeYaml where
  to_string : SupportedResources → Except String String

/-- A remote-execution call made by the dispatcher through the Fleet. -/
inductive FleetCall where
  | find (node_name : String)
  | applyResource (node_name : String) (manifest : String)
deriving DecidableEq, Repr

/-- What one dispatch of `schedule_one` produces: the schedule result (`none`
models the panic of the `unwrap` on channel resolution, src/scheduler.rs line
139, which aborts the process), the Fleet calls made, and the stderr log lines
emitted. -/
structure DispatchOutcome where
  result : Option ScheduleResult
  calls : List FleetCall
  errlogs : List String
deriving Repr

/-- src/scheduler.rs, `DefaultScheduler::remove_existing` (lines 103–105): the
cleanup step is a stub that ignores its arguments and returns `Ok(())`. -/
def remove_existing (conns : SshClients) (resource : ExistingResource) :
    Except String Unit :=
  Except.ok ()

/-- Rust `str::replace("\n", "\\n")` (src/scheduler.rs line 154), specialised
to the single-character pattern: every line-feed character becomes the two
characters backslash, n. -/
def escapeNewlines (s : String) : String :=
  String.mk (s.data.foldr (fun c acc => if c = '\n' then '\\' :: 'n' :: acc else c :: acc) [])

/-- src/scheduler.rs, `DefaultScheduler::schedule_one` (lines 107–159):
serialize, plan, best-effort cleanup, resolve the channel, dispatch, and build
the result.  A failed channel `unwrap` is modelled as `result := none`. -/
def scheduleOne (yaml : SerdeYaml) (conns : SshClients) (state : ClusterState)
    (object : SupportedResources) : DispatchOutcome :=
  match yaml.to_string object with
  | Except.error err =>
    { result := some { object := object, node_name := "", status := Status.Error err }
      calls := [], errlogs := [] }
  | Except.ok serialized =>
    match (plan state object).next with
    | none =>
      { result := some { object := object, node_name := ""
                         status := Status.Error "failed to find schedulable node" }
        calls := [], errlogs := [] }
    | some next_node =>
      let cleanup_result := match (plan state object).current with
        | some e => remove_existing conns e
        | none => Except.ok ()
      let cleanup_logs := match cleanup_result with
        | Except.ok _ => []
        | Except.error e => ["failed to cleanup existing resource: " ++ e]
      match conns.find next_node.node_name with
      | none => { result := none, calls := [FleetCall.find next_node.node_name]
                  errlogs := cleanup_logs }
      | some client =>
        match client.apply_resource serialized with
        | Except.ok (stdout, stderr) =>
          let builder := stdout ++ (if stderr.length > 0 then " ( stderr: " ++ stderr ++ " )" else "")
          { result := some { object := object, node_name := next_node.node_name
                             status := Status.Scheduled (escapeNewlines builder) }
            calls := [FleetCall.find next_node.node_name,
                      FleetCall.applyResource next_node.node_name serialized]
            errlogs := cleanup_logs }
        | Except.error err =>
          { result := some { object := object, node_name := next_node.node_name
                             status := Status.Error err }
            calls := [FleetCall.find next_node.node_name,
                      FleetCall.applyResource next_node.node_name serialized]
            errlogs := cleanup_logs }

/-- The dispatcher with step 3 (remove previous instance) deleted, following
the spec's wording of the protocol without the cleanup step; compared with
`scheduleOne` to show the cleanup step changes nothing. -/
def scheduleOneSkipCleanup (yaml : SerdeYaml) (conns : SshClients) (state : ClusterState)
    (object : SupportedResources) : DispatchOutcome :=
  match yaml.to_string object with
  | Except.error err =>
    { result := some { object := object, node_name := "", status := Status.Error err }
      calls := [], errlogs := [] }
  | Except.ok serialized =>
    match (plan state object).next with
    | none =>
      { result := some { object := object, node_name := ""
                         status := Status.Error "failed to find schedulable node" }
        calls := [], errlogs := [] }
    | some next_node =>
      match conns.find next_node.node_name with
      | none => { result := none, calls := [FleetCall.find next_node.node_name]
                  errlogs := [] }
      | some client =>
        match client.apply_resource serialized with
        | Except.ok (stdout, stderr) =>
          let builder := stdout ++ (if stderr.length > 0 then " ( stderr: " ++ stderr ++ " )" else "")
          { result := some { object := object, node_name := next_node.node_name
                             status := Status.Scheduled (escapeNewlines builder) }
            calls := [FleetCall.find next_node.node_name,
                      FleetCall.applyResource next_node.node_name serialized]
            errlogs := [] }
        | Except.error err =>
          { result := some { object := object, node_name := next_node.node_name
                             status := Status.Error err }
            calls := [FleetCall.find next_node.node_name,
                      FleetCall.applyResource next_node.node_name serialized]
            errlogs := [] }

/-- src/scheduler.rs, `Scheduler::schedule` for `DefaultScheduler` (lines
164–175): loop sequentially over the input resources, dispatch each one
(the match over the tagged union is exhaustive and both kinds take the same
branch), and collect the results in order.  The Rust function always returns
`Ok(results)`; the outer `Option` models the dispatcher's possible panic,
which aborts the whole call. -/
def schedule (yaml : SerdeYaml) (conns : SshClients) (state : ClusterState) :
    List SupportedResources → Option (List ScheduleResult)
  | [] => some []
  | object :: rest =>
    match object with
    | SupportedResources.Pod _ | SupportedResources.Deployment _ =>
      match (scheduleOne yaml conns state object).result with
      | none => none
      | some r => (schedule yaml conns state rest).map fun rs => r :: rs

/-! ### Lemmas about the placement fold -/

lemma orElse_someFn_isSome {α : Type} (o : Option α) (n : α) :
    (o.orElse fun _ => some n).isSome = true := by
  cases o <;> rfl

lemma foldStep_none (n : NodeState) : foldStep none n = some n := rfl

lemma foldStep_isSome (acc : Option NodeState) (n : NodeState) :
    (foldStep acc n).isSome = true := by
  unfold foldStep
  exact orElse_someFn_isSome _ _

lemma hasTelemetry_elim (prev : NodeState) (h : hasTelemetry prev = true) :
    ∃ hi si pods, prev.host_info = some hi ∧ hi.system_info = some si ∧
      si.pods = some pods := by
  unfold hasTelemetry at h
  rcases hh : prev.host_info with _ | hi
  · rw [hh] at h; simp at h
  rw [hh] at h
  simp only [Option.some_bind] at h
  rcases hs : hi.system_info with _ | si
  · rw [hs] at h; simp at h
  rw [hs] at h
  simp only [Option.some_bind] at h
  rcases hp : si.pods with _ | pods
  · rw [hp] at h; simp at h
  exact ⟨hi, si, pods, rfl, hs, hp⟩

lemma nodeLoad_of_telemetry (prev : NodeState) {hi si pods}
    (hh : prev.host_info = some hi) (hs : hi.system_info = some si)
    (hp : si.pods = some pods) : nodeLoad prev = pods.length := by
  unfold nodeLoad
  simp [hh, hs, hp]

lemma foldStep_some_of_hasTelemetry (prev node : NodeState) (h : hasTelemetry prev = true) :
    foldStep (some prev) node =
      some (if nodeLoad prev < nodeLoad node then prev else node) := by
  obtain ⟨hi, si, pods, hh, hs, hp⟩ := hasTelemetry_elim prev h
  have hload : nodeLoad prev = pods.length := nodeLoad_of_telemetry prev hh hs hp
  rw [hload]
  simp only [foldStep, Option.some_bind, hh, hs, hp]
  rcases Nat.lt_trichotomy pods.length (nodeLoad node) with hlt | heq | hgt
  · rw [Nat.compare_eq_lt.mpr hlt]
    simp [Option.orElse, if_pos hlt]
  · rw [Nat.compare_eq_eq.mpr heq]
    simp [Option.orElse, if_neg (by omega : ¬ pods.length < nodeLoad node)]
  · rw [Nat.compare_eq_gt.mpr hgt]
    simp [Option.orElse, if_neg (by omega : ¬ pods.length < nodeLoad node)]

lemma foldStep_some_cases (prev n x : NodeState) (h : foldStep (some prev) n = some x) :
    (x = prev ∧ hasTelemetry prev = true) ∨ x = n := by
  simp only [foldStep, Option.some_bind] at h
  rcases hh : prev.host_info with _ | hi
  · rw [hh] at h; simp [Option.orElse] at h; exact Or.inr h.symm
  rw [hh] at h
  simp only [Option.some_bind] at h
  rcases hs : hi.system_info with _ | si
  · rw [hs] at h; simp [Option.orElse] at h; exact Or.inr h.symm
  rw [hs] at h
  simp only [Option.some_bind] at h
  rcases hp : si.pods with _ | pods
  · rw [hp] at h; simp [Option.orElse] at h; exact Or.inr h.symm
  rw [hp] at h
  simp only [Option.some_bind, Option.orElse] at h
  have htel : hasTelemetry prev = true := by
    unfold hasTelemetry; rw [hh]
    simp only [Option.some_bind]
    rw [hs]
    simp only [Option.some_bind]
    rw [hp]
    rfl
  rcases hc : compare pods.length (nodeLoad n) with _ | _ | _ <;>
    rw [hc] at h <;> simp at h
  · exact Or.inl ⟨h.symm, htel⟩
  · exact Or.inr h.symm
  · exact Or.inr h.symm

lemma foldStep_cases (acc : Option NodeState) (n x : NodeState)
    (h : foldStep acc n = some x) : acc = some x ∨ x = n := by
  cases acc with
  | none =>
    rw [foldStep_none] at h
    exact Or.inr (Option.some.inj h).symm
  | some prev =>
    rcases foldStep_some_cases prev n x h with ⟨rfl, _⟩ | rfl
    · exact Or.inl rfl
    · exact Or.inr rfl

lemma foldl_foldStep_some (l : List NodeState) :
    ∀ x : NodeState, ∃ r, l.foldl foldStep (some x) = some r := by
  induction l with
  | nil => exact fun x => ⟨x, rfl⟩
  | cons n rest ih =>
    intro x
    rw [List.foldl_cons]
    obtain ⟨y, hy⟩ := Option.isSome_iff_exists.mp (foldStep_isSome (some x) n)
    rw [hy]
    exact ih y

lemma foldl_foldStep_mem (l : List NodeState) :
    ∀ (acc : Option NodeState) (r : NodeState),
      l.foldl foldStep acc = some r → acc = some r ∨ r ∈ l := by
  induction l with
  | nil => exact fun acc r h => Or.inl h
  | cons n rest ih =>
    intro acc r h
    rw [List.foldl_cons] at h
    rcases ih (foldStep acc n) r h with hstep | hmem
    · rcases foldStep_cases acc n r hstep with hacc | rfl
      · exact Or.inl hacc
      · exact Or.inr (by simp)
    · exact Or.inr (by simp [hmem])

lemma foldl_foldStep_min (l : List NodeState) :
    ∀ a r : NodeState, (∀ n ∈ l, hasTelemetry n = true) → hasTelemetry a = true →
      l.foldl foldStep (some a) = some r →
      (r = a ∧ ∀ n ∈ l, nodeLoad a < nodeLoad n) ∨
      (∃ l1 l2, l = l1 ++ r :: l2 ∧ nodeLoad r ≤ nodeLoad a ∧
        (∀ n ∈ l1, nodeLoad r ≤ nodeLoad n) ∧ (∀ n ∈ l2, nodeLoad r < nodeLoad n)) := by
  induction l with
  | nil =>
    intro a r _ _ hfold
    simp only [List.foldl_nil, Option.some.injEq] at hfold
    exact Or.inl ⟨hfold.symm, by simp⟩
  | cons n rest ih =>
    intro a r hl ha hfold
    have hn : hasTelemetry n = true := hl n (by simp)
    rw [List.foldl_cons, foldStep_some_of_hasTelemetry a n ha] at hfold
    by_cases hcmp : nodeLoad a < nodeLoad n
    · rw [if_pos hcmp] at hfold
      rcases ih a r (fun m hm => hl m (by simp [hm])) ha hfold with
        ⟨hr, hmin⟩ | ⟨l1, l2, hdec, hle, h1, h2⟩
      · refine Or.inl ⟨hr, ?_⟩
        intro m hm
        rcases List.mem_cons.mp hm with rfl | hm
        · exact hcmp
        · exact hmin m hm
      · refine Or.inr ⟨n :: l1, l2, by simp [hdec], hle, ?_, h2⟩
        intro m hm
        rcases List.mem_cons.mp hm with rfl | hm
        · exact le_of_lt (lt_of_le_of_lt hle hcmp)
        · exact h1 m hm
    · rw [if_neg hcmp] at hfold
      have hna : nodeLoad n ≤ nodeLoad a := Nat.le_of_not_lt hcmp
      rcases ih n r (fun m hm => hl m (by simp [hm])) hn hfold with
        ⟨hr, hmin⟩ | ⟨l1, l2, hdec, hle, h1, h2⟩
      · subst hr
        exact Or.inr ⟨[], rest, by simp, hna, by simp, hmin⟩
      · refine Or.inr ⟨n :: l1, l2, by simp [hdec], le_trans hle hna, ?_, h2⟩
        intro m hm
        rcases List.mem_cons.mp hm with rfl | hm
        · exact hle
        · exact h1 m hm

lemma foldl_foldStep_last_of_not_hasTelemetry (l : List NodeState) :
    ∀ (acc : Option NodeState) (r : NodeState),
      l.foldl foldStep acc = some r → hasTelemetry r = false →
      (l = [] ∧ acc = some r) ∨ ∃ l1, l = l1 ++ [r] := by
  induction l with
  | nil => exact fun acc r h _ => Or.inl ⟨rfl, h⟩
  | cons n rest ih =>
    intro acc r h hr
    rw [List.foldl_cons] at h
    rcases ih (foldStep acc n) r h hr with ⟨hre, hstep⟩ | ⟨l1, hdec⟩
    · subst hre
      cases acc with
      | none =>
        rw [foldStep_none] at hstep
        have : n = r := Option.some.inj hstep
        exact Or.inr ⟨[], by simp [this]⟩
      | some prev =>
        rcases foldStep_some_cases prev n r hstep with ⟨rfl, htel⟩ | rfl
        · rw [htel] at hr; cases hr
        · exact Or.inr ⟨[], rfl⟩
    · exact Or.inr ⟨n :: l1, by simp [hdec]⟩

/-! ### Lemmas about locating existing resources and the plan -/

lemma locate_pod_node_mem (state : ClusterState) (name ns : String)
    (p : PodmanPodInfo) (n : NodeState)
    (h : state.locate_pod name ns = some (p, n)) : n ∈ state.nodes := by
  unfold ClusterState.locate_pod at h
  obtain ⟨a, ha, hfa⟩ := List.exists_of_findSome?_eq_some h
  rcases hmap : (nodePods a).find? (fun q => q.name == name && q.«namespace» == ns)
    with _ | q
  · rw [hmap] at hfa; cases hfa
  · rw [hmap] at hfa
    simp only [Option.map_some'] at hfa
    injection hfa with hpair
    injection hpair with h1 h2
    subst h2
    exact ha

lemma deploymentMatches_node_mem (state : ClusterState) (name ns : String)
    (p : PodmanPodInfo) (n : NodeState)
    (h : (p, n) ∈ deploymentMatches state name ns) : n ∈ state.nodes := by
  unfold deploymentMatches at h
  rw [List.mem_flatMap] at h
  obtain ⟨a, ha, hpa⟩ := h
  rw [List.mem_map] at hpa
  obtain ⟨q, _, hqe⟩ := hpa
  injection hqe with h1 h2
  subst h2
  exact ha

lemma locate_deployment_elim (state : ClusterState) (name ns : String)
    (ps : List PodmanPodInfo) (n : NodeState)
    (h : state.locate_deployment name ns = some (ps, n)) :
    ps = (deploymentMatches state name ns).map Prod.fst ∧
      ∃ p, (p, n) ∈ deploymentMatches state name ns := by
  unfold ClusterState.locate_deployment at h
  rcases hm : deploymentMatches state name ns with _ | ⟨⟨q, m⟩, t⟩
  · rw [hm] at h; cases h
  · rw [hm] at h
    injection h with hpair
    injection hpair with h1 h2
    subst h2
    exact ⟨h1.symm, q, by simp⟩

lemma mem_deploymentMatches_fst (state : ClusterState) (name ns : String)
    (p : PodmanPodInfo) :
    p ∈ (deploymentMatches state name ns).map Prod.fst ↔
      ∃ node ∈ state.nodes, p ∈ nodePods node ∧
        p.deployment = name ∧ p.«namespace» = ns := by
  unfold deploymentMatches
  constructor
  · intro h
    rw [List.mem_map] at h
    obtain ⟨⟨q, m⟩, hqm, hq⟩ := h
    rw [List.mem_flatMap] at hqm
    obtain ⟨node, hnode, hmem⟩ := hqm
    rw [List.mem_map] at hmem
    obtain ⟨q', hq', hq'e⟩ := hmem
    injection hq'e with e1 e2
    subst e1; subst e2
    rcases List.mem_filter.mp hq' with ⟨hqpods, hpred⟩
    rcases Bool.and_eq_true_iff.mp hpred with ⟨hd, hns⟩
    cases hq
    exact ⟨node, hnode, hqpods, eq_of_beq hd, eq_of_beq hns⟩
  · rintro ⟨node, hnode, hpods, hd, hns⟩
    rw [List.mem_map]
    refine ⟨(p, node), ?_, rfl⟩
    rw [List.mem_flatMap]
    refine ⟨node, hnode, ?_⟩
    rw [List.mem_map]
    refine ⟨p, ?_, rfl⟩
    rw [List.mem_filter]
    exact ⟨hpods, by rw [hd, hns]; simp⟩

lemma deploymentMatches_nil_iff (state : ClusterState) (name ns : String) :
    deploymentMatches state name ns = [] ↔
      ∀ node ∈ state.nodes, ∀ p ∈ nodePods node,
        ¬ (p.deployment = name ∧ p.«namespace» = ns) := by
  constructor
  · intro h node hnode p hp ⟨hd, hns⟩
    have : p ∈ (deploymentMatches state name ns).map Prod.fst :=
      (mem_deploymentMatches_fst state name ns p).mpr ⟨node, hnode, hp, hd, hns⟩
    rw [h] at this
    cases this
  · intro h
    rw [List.eq_nil_iff_forall_not_mem]
    rintro ⟨p, node⟩ hmem
    unfold deploymentMatches at hmem
    rw [List.mem_flatMap] at hmem
    obtain ⟨node', hnode', hmem'⟩ := hmem
    rw [List.mem_map] at hmem'
    obtain ⟨q, hq, hqe⟩ := hmem'
    injection hqe with e1 e2
    subst e1; subst e2
    rcases List.mem_filter.mp hq with ⟨hqpods, hpred⟩
    rcases Bool.and_eq_true_iff.mp hpred with ⟨hd, hns⟩
    exact h node' hnode' q hqpods ⟨eq_of_beq hd, eq_of_beq hns⟩

lemma existingNode_mem (state : ClusterState) (object : SupportedResources)
    (c : NodeState) (h : existingNode (locateExisting state object) = some c) :
    c ∈ state.nodes := by
  cases object with
  | Pod p =>
    rcases hl : state.locate_pod (p.metadata.name.getD "") (p.metadata.«namespace».getD "")
      with _ | ⟨q, m⟩
    · simp [locateExisting, hl, existingNode] at h
    · simp only [locateExisting, hl, Option.map_some', existingNode,
        Option.some.injEq] at h
      subst h
      exact locate_pod_node_mem state _ _ q m hl
  | Deployment d =>
    rcases hl : state.locate_deployment (d.metadata.name.getD "")
      (d.metadata.«namespace».getD "") with _ | ⟨ps, m⟩
    · simp [locateExisting, hl, existingNode] at h
    · simp only [locateExisting, hl, Option.map_some', existingNode,
        Option.some.injEq] at h
      subst h
      obtain ⟨-, p, hp⟩ := locate_deployment_elim state _ _ ps m hl
      exact deploymentMatches_node_mem state _ _ p m hp

lemma plan_next_eq (state : ClusterState) (object : SupportedResources) :
    (plan state object).next =
      state.nodes.foldl foldStep (existingNode (locateExisting state object)) := rfl

lemma plan_current_eq (state : ClusterState) (object : SupportedResources) :
    (plan state object).current = locateExisting state object := rfl

lemma plan_next_none_iff (state : ClusterState) (object : SupportedResources) :
    (plan state object).next = none ↔ state.nodes = [] := by
  constructor
  · intro h
    cases hn : state.nodes with
    | nil => rfl
    | cons n rest =>
      rw [plan_next_eq, hn] at h
      obtain ⟨y, hy⟩ := Option.isSome_iff_exists.mp
        (foldStep_isSome (existingNode (locateExisting state object)) n)
      rw [List.foldl_cons, hy] at h
      obtain ⟨r, hr⟩ := foldl_foldStep_some rest y
      rw [hr] at h
      cases h
  · intro h
    rw [plan_next_eq, h, List.foldl_nil]
    cases hl : existingNode (locateExisting state object) with
    | none => rfl
    | some c =>
      have := existingNode_mem state object c hl
      rw [h] at this
      cases this

lemma min_of_decomposition (l1 l2 : List NodeState) (r : NodeState)
    (h1 : ∀ n ∈ l1, nodeLoad r ≤ nodeLoad n)
    (h2 : ∀ n ∈ l2, nodeLoad r < nodeLoad n) :
    ∀ n ∈ l1 ++ r :: l2, nodeLoad r ≤ nodeLoad n := by
  intro n hn
  rcases List.mem_append.mp hn with h | h
  · exact h1 n h
  rcases List.mem_cons.mp h with rfl | h
  · exact le_refl _
  · exact le_of_lt (h2 n h)

/-! ### Concrete fixtures -/

/-- A system-info record carrying only a pod list. -/
def mkSystemInfo (pods : Option (List PodmanPodInfo)) : SystemInfo :=
  { total_memory_mib := 0, used_memory_mib := 0, total_swap_mib := 0
    used_swap_mib := 0, num_cpus := 0, pods := pods }

/-- A healthy node with full telemetry and the given pod list. -/
def mkNode (nm : String) (pods : Option (List PodmanPodInfo)) : NodeState :=
  { node_name := nm, status := NodeStatus.Healthy
    host_info := some { system_info := some (mkSystemInfo pods) } }

/-- A pod instance with no labels, used as load filler. -/
def fillerPod : PodmanPodInfo :=
  { id := "id-x", name := "x", status := "Running", created := 0
    labels := [], containers := [] }

/-- An unreachable node: telemetry absent. -/
def bareNode : NodeState :=
  { node_name := "node-1", status := NodeStatus.Unhealthy, host_info := none }

/-- A reachable node reporting exactly one pod instance. -/
def loadedNode : NodeState := mkNode "node-2" (some [fillerPod])

/-- Snapshot whose first node lacks telemetry and whose second carries one pod. -/
def cexState : ClusterState := ⟨[bareNode, loadedNode]⟩

/-- A Pod resource matching no existing instance. -/
def cexObj : SupportedResources :=
  SupportedResources.Pod ⟨⟨some "nope", some "default", none⟩⟩

/-- Three fully telemetered nodes with loads 2, 1, 1. -/
def wMinState : ClusterState :=
  ⟨[mkNode "n1" (some [fillerPod, fillerPod]), mkNode "n2" (some [fillerPod]),
    mkNode "n3" (some [fillerPod])]⟩

/-- Snapshot with the loaded node first and the telemetry-absent node last. -/
def wLastState : ClusterState := ⟨[loadedNode, bareNode]⟩

/-! ### C1 -/

/-- C1, counterexample: in the snapshot `[bareNode, loadedNode]` the fold
returns `loadedNode` with load 1 even though `bareNode` has load 0, so the
selected node's load is not the minimum of the node loads. -/
theorem c1_min_load_counterexample :
    (plan cexState cexObj).next = some loadedNode ∧ nodeLoad loadedNode = 1 ∧
    bareNode ∈ cexState.nodes ∧ nodeLoad bareNode = 0 ∧
    ¬ ∀ r, (plan cexState cexObj).next = some r →
      ∀ n ∈ cexState.nodes, nodeLoad r ≤ nodeLoad n := by
  refine ⟨by decide, by decide, by decide, by decide, fun hmin => ?_⟩
  have h2 := hmin loadedNode (by decide) bareNode (by decide)
  have h3 : nodeLoad loadedNode = 1 := by decide
  have h4 : nodeLoad bareNode = 0 := by decide
  omega

/-- C1 (amended): for every snapshot whose nodes all carry full telemetry
(host info, system info and pod list present), the placement fold returns a
node of minimal load, and among nodes tied at the minimum it returns the one
occurring last in snapshot iteration order (no strictly-later node reaches the
minimum). -/
theorem plan_selects_min_load_last_tie (state : ClusterState)
    (object : SupportedResources)
    (hTel : ∀ n ∈ state.nodes, hasTelemetry n = true) (hne : state.nodes ≠ []) :
    ∃ r l1 l2, (plan state object).next = some r ∧
      state.nodes = l1 ++ r :: l2 ∧
      (∀ n ∈ state.nodes, nodeLoad r ≤ nodeLoad n) ∧
      (∀ n ∈ l2, nodeLoad r < nodeLoad n) := by
  rw [plan_next_eq]
  cases hl : existingNode (locateExisting state object) with
  | none =>
    cases hn : state.nodes with
    | nil => exact absurd hn hne
    | cons n rest =>
      obtain ⟨r, hr⟩ := foldl_foldStep_some rest n
      have hfold : (n :: rest).foldl foldStep none = some r := by
        rw [List.foldl_cons, foldStep_none]; exact hr
      have hTel' : ∀ m ∈ rest, hasTelemetry m = true := fun m hm =>
        hTel m (by rw [hn]; simp [hm])
      have hTeln : hasTelemetry n = true := hTel n (by rw [hn]; simp)
      rcases foldl_foldStep_min rest n r hTel' hTeln hr with
        ⟨hre, hmin⟩ | ⟨l1, l2, hdec, hle, h1, h2⟩
      · subst hre
        refine ⟨r, [], rest, hfold, by simp, ?_, hmin⟩
        intro m hm
        rcases List.mem_cons.mp hm with rfl | hm
        · exact le_refl _
        · exact le_of_lt (hmin m hm)
      · refine ⟨r, n :: l1, l2, hfold, by simp [hdec], ?_, h2⟩
        intro m hm
        rcases List.mem_cons.mp hm with rfl | hm
        · exact hle
        · rw [hdec] at hm
          exact min_of_decomposition l1 l2 r h1 h2 m hm
  | some c =>
    have hc : c ∈ state.nodes := existingNode_mem state object c hl
    have hTelc := hTel c hc
    obtain ⟨r, hr⟩ := foldl_foldStep_some state.nodes c
    rcases foldl_foldStep_min state.nodes c r hTel hTelc hr with
      ⟨hre, hmin⟩ | ⟨l1, l2, hdec, hle, h1, h2⟩
    · subst hre
      exact absurd (hmin r hc) (lt_irrefl _)
    · refine ⟨r, l1, l2, hr, hdec, ?_, h2⟩
      rw [hdec]
      exact min_of_decomposition l1 l2 r h1 h2

/-- C1 (amended), witness at a 3-node snapshot with loads 2, 1, 1. -/
theorem plan_selects_min_load_last_tie_witness :
    (∀ n ∈ wMinState.nodes, hasTelemetry n = true) ∧ wMinState.nodes ≠ [] ∧
    ∃ r l1 l2, (plan wMinState cexObj).next = some r ∧
      wMinState.nodes = l1 ++ r :: l2 ∧
      (∀ n ∈ wMinState.nodes, nodeLoad r ≤ nodeLoad n) ∧
      (∀ n ∈ l2, nodeLoad r < nodeLoad n) :=
  ⟨by decide, by decide,
   plan_selects_min_load_last_tie wMinState cexObj (by decide) (by decide)⟩

/-! ### C9 -/

/-- C9: whenever the running best choice lacks telemetry, the fold step
unconditionally replaces it with the scanned candidate, regardless of load;
consequently a telemetry-absent node can be the planner's target only if it is
the last node in snapshot iteration order. -/
theorem telemetry_absent_best_always_replaced :
    (∀ prev node : NodeState, hasTelemetry prev = false →
      foldStep (some prev) node = some node) ∧
    (∀ (state : ClusterState) (object : SupportedResources) (r : NodeState),
      (plan state object).next = some r → hasTelemetry r = false →
      ∃ l1, state.nodes = l1 ++ [r]) := by
  constructor
  · intro prev node h
    unfold hasTelemetry at h
    simp only [foldStep, Option.some_bind]
    rcases hh : prev.host_info with _ | hi
    · rfl
    rw [hh] at h
    simp only [Option.some_bind] at h ⊢
    rcases hs : hi.system_info with _ | si
    · rfl
    rw [hs] at h
    simp only [Option.some_bind] at h ⊢
    rcases hp : si.pods with _ | pods
    · rfl
    rw [hp] at h
    simp at h
  · intro state object r hnext hr
    rw [plan_next_eq] at hnext
    rcases foldl_foldStep_last_of_not_hasTelemetry state.nodes _ r hnext hr with
      ⟨hnil, hacc⟩ | hdec
    · exfalso
      have := existingNode_mem state object r hacc
      rw [hnil] at this
      cases this
    · exact hdec

/-- C9, witness: a telemetry-absent running best is replaced even by a loaded
candidate, and in the snapshot `[loadedNode, bareNode]` the telemetry-absent
target is the last node. -/
theorem telemetry_absent_best_always_replaced_witness :
    (hasTelemetry bareNode = false ∧
      foldStep (some bareNode) loadedNode = some loadedNode) ∧
    ∃ l1, wLastState.nodes = l1 ++ [bareNode] :=
  ⟨⟨by decide, telemetry_absent_best_always_replaced.1 bareNode loadedNode (by decide)⟩,
   telemetry_absent_best_always_replaced.2 wLastState cexObj bareNode
     (by decide) (by decide)⟩

/-! ### C2 -/

lemma locate_deployment_none_iff (state : ClusterState) (name ns : String) :
    state.locate_deployment name ns = none ↔
      deploymentMatches state name ns = [] := by
  unfold ClusterState.locate_deployment
  rcases hm : deploymentMatches state name ns with _ | ⟨⟨q, m⟩, t⟩ <;> simp

/-- C2: for every snapshot and Deployment resource, the plan's
existing-resource lookup returns one located resource collecting exactly the
pod instances, across all nodes, whose deployment-group and namespace labels
equal the resource's name and namespace; it is absent exactly when no node
holds such an instance. -/
theorem locate_collects_all_deployment_instances (state : ClusterState)
    (d : Deployment) :
    (∀ ps n, (plan state (SupportedResources.Deployment d)).current =
        some (ExistingResource.Deployment ⟨ps, n⟩) →
      ∀ p, p ∈ ps ↔ ∃ node ∈ state.nodes, p ∈ nodePods node ∧
        p.deployment = d.metadata.name.getD "" ∧
        p.«namespace» = d.metadata.«namespace».getD "") ∧
    ((plan state (SupportedResources.Deployment d)).current = none ↔
      ∀ node ∈ state.nodes, ∀ p ∈ nodePods node,
        ¬ (p.deployment = d.metadata.name.getD "" ∧
           p.«namespace» = d.metadata.«namespace».getD "")) := by
  constructor
  · intro ps n h p
    rw [plan_current_eq] at h
    rcases hl : state.locate_deployment (d.metadata.name.getD "")
      (d.metadata.«namespace».getD "") with _ | ⟨qs, m⟩
    · simp [locateExisting, hl] at h
    · simp only [locateExisting, hl, Option.map_some', Option.some.injEq,
        ExistingResource.Deployment.injEq, ResourceAndNode.mk.injEq] at h
      obtain ⟨hqs, -⟩ := h
      obtain ⟨hps, -⟩ := locate_deployment_elim state _ _ qs m hl
      rw [← hqs, hps]
      exact mem_deploymentMatches_fst state _ _ p
  · rw [plan_current_eq]
    constructor
    · intro h
      rcases hl : state.locate_deployment (d.metadata.name.getD "")
        (d.metadata.«namespace».getD "") with _ | ⟨qs, m⟩
      · exact (deploymentMatches_nil_iff state _ _).mp
          ((locate_deployment_none_iff state _ _).mp hl)
      · simp [locateExisting, hl] at h
    · intro h
      have hm := (deploymentMatches_nil_iff state _ _).mpr h
      have hl := (locate_deployment_none_iff state
        (d.metadata.name.getD "") (d.metadata.«namespace».getD "")).mpr hm
      simp [locateExisting, hl]

/-- Deployment pods for the C2 witness: three instances of deployment `web`
in namespace `default`. -/
def depPodA : PodmanPodInfo :=
  { id := "id-a", name := "web-1", status := "Running", created := 0
    labels := [("skate.io/namespace", "default"), ("skate.io/deployment", "web")]
    containers := [] }

/-- Second pod of the `web` deployment. -/
def depPodB : PodmanPodInfo := { depPodA with id := "id-b", name := "web-2" }

/-- Third pod of the `web` deployment, on the other node. -/
def depPodC : PodmanPodInfo := { depPodA with id := "id-c", name := "web-3" }

/-- First witness node, hosting two of the three deployment pods. -/
def depNodeA : NodeState := mkNode "nA" (some [depPodA, depPodB])

/-- Second witness node, hosting the remaining deployment pod. -/
def depNodeB : NodeState := mkNode "nB" (some [depPodC])

/-- Witness snapshot with the deployment split 2-and-1 across two nodes. -/
def depState : ClusterState := ⟨[depNodeA, depNodeB]⟩

/-- The Deployment resource named `web` in namespace `default`. -/
def depObj : Deployment := ⟨⟨some "web", some "default", none⟩⟩

/-- C2, witness: the three instances split 2-and-1 across two nodes are
grouped into one located resource, and membership matches the label
characterization. -/
theorem locate_collects_all_deployment_instances_witness :
    (plan depState (SupportedResources.Deployment depObj)).current =
      some (ExistingResource.Deployment ⟨[depPodA, depPodB, depPodC], depNodeA⟩) ∧
    (depPodC ∈ [depPodA, depPodB, depPodC] ↔
      ∃ node ∈ depState.nodes, depPodC ∈ nodePods node ∧
        depPodC.deployment = depObj.metadata.name.getD "" ∧
        depPodC.«namespace» = depObj.metadata.«namespace».getD "") :=
  ⟨by decide,
   (locate_collects_all_deployment_instances depState depObj).1
     [depPodA, depPodB, depPodC] depNodeA (by decide) depPodC⟩

/-! ### C10 -/

lemma locate_deployment_some_of_mem (state : ClusterState) (name ns : String)
    (h : deploymentMatches state name ns ≠ []) :
    ∃ n, state.locate_deployment name ns =
      some ((deploymentMatches state name ns).map Prod.fst, n) := by
  unfold ClusterState.locate_deployment
  rcases hm : deploymentMatches state name ns with _ | ⟨⟨q, m⟩, t⟩
  · exact absurd hm h
  · exact ⟨m, rfl⟩

lemma locate_pod_spec (state : ClusterState) (name ns : String)
    (r : PodmanPodInfo) (n : NodeState)
    (h : state.locate_pod name ns = some (r, n)) :
    r.name = name ∧ r.«namespace» = ns := by
  unfold ClusterState.locate_pod at h
  obtain ⟨a, _, hfa⟩ := List.exists_of_findSome?_eq_some h
  rcases hmap : (nodePods a).find? (fun q => q.name == name && q.«namespace» == ns)
    with _ | q
  · rw [hmap] at hfa; cases hfa
  · rw [hmap] at hfa
    simp only [Option.map_some'] at hfa
    injection hfa with hpair
    injection hpair with h1 h2
    subst h1
    have hps := List.find?_some (p := fun (x : PodmanPodInfo) => x.name == name && x.«namespace» == ns) hmap
    rcases Bool.and_eq_true_iff.mp hps with ⟨hn, hns⟩
    exact ⟨eq_of_beq hn, eq_of_beq hns⟩

lemma locate_pod_isSome (state : ClusterState) (name ns : String)
    (node : NodeState) (p : PodmanPodInfo) (hn : node ∈ state.nodes)
    (hp : p ∈ nodePods node) (h1 : p.name = name) (h2 : p.«namespace» = ns) :
    (state.locate_pod name ns).isSome = true := by
  unfold ClusterState.locate_pod
  rw [List.findSome?_isSome_iff]
  refine ⟨node, hn, ?_⟩
  have : ((nodePods node).find? fun q => q.name == name && q.«namespace» == ns).isSome
      = true := by
    rw [List.find?_isSome]
    exact ⟨p, hp, by rw [h1, h2]; simp⟩
  obtain ⟨q, hq⟩ := Option.isSome_iff_exists.mp this
  rw [hq]
  rfl

/-- C10: a resource whose metadata lacks a name or a namespace is matched
under the empty-string identity, so it can locate pod instances carrying no
namespace or deployment label at all: a label-less Deployment resource groups
every unlabeled instance, and a name-less Pod resource locates an instance
with empty name and no namespace label. -/
theorem missing_metadata_matches_unlabeled_pods (state : ClusterState)
    (node : NodeState) (p : PodmanPodInfo) (hn : node ∈ state.nodes)
    (hp : p ∈ nodePods node)
    (hl1 : p.labels.lookup "skate.io/namespace" = none)
    (hl2 : p.labels.lookup "skate.io/deployment" = none) :
    (∀ d : Deployment, d.metadata.name = none → d.metadata.«namespace» = none →
      ∃ ps n, (plan state (SupportedResources.Deployment d)).current =
        some (ExistingResource.Deployment ⟨ps, n⟩) ∧ p ∈ ps) ∧
    (∀ q : Pod, q.metadata.name = none → q.metadata.«namespace» = none →
      p.name = "" →
      ∃ r n, (plan state (SupportedResources.Pod q)).current =
        some (ExistingResource.Pod ⟨r, n⟩) ∧ r.name = "" ∧ r.«namespace» = "") := by
  have hdep : p.deployment = "" := by
    unfold PodmanPodInfo.deployment
    rw [hl2]
    rfl
  have hns : p.«namespace» = "" := by
    unfold PodmanPodInfo.«namespace»
    rw [hl1]
    rfl
  constructor
  · intro d hd1 hd2
    have hmem : p ∈ (deploymentMatches state (d.metadata.name.getD "")
        (d.metadata.«namespace».getD "")).map Prod.fst := by
      rw [mem_deploymentMatches_fst]
      exact ⟨node, hn, hp, by rw [hd1, hdep]; rfl, by rw [hd2, hns]; rfl⟩
    have hne : deploymentMatches state (d.metadata.name.getD "")
        (d.metadata.«namespace».getD "") ≠ [] := by
      intro hnil
      rw [hnil] at hmem
      cases hmem
    obtain ⟨n, hl⟩ := locate_deployment_some_of_mem state _ _ hne
    refine ⟨(deploymentMatches state (d.metadata.name.getD "")
      (d.metadata.«namespace».getD "")).map Prod.fst, n, ?_, hmem⟩
    rw [plan_current_eq]
    simp [locateExisting, hl]
  · intro q hq1 hq2 hpname
    have hsome := locate_pod_isSome state (q.metadata.name.getD "")
      (q.metadata.«namespace».getD "") node p hn hp
      (by rw [hq1, hpname]; rfl) (by rw [hq2, hns]; rfl)
    obtain ⟨⟨r, n⟩, hl⟩ := Option.isSome_iff_exists.mp hsome
    obtain ⟨hr1, hr2⟩ := locate_pod_spec state _ _ r n hl
    refine ⟨r, n, ?_, by rw [hr1, hq1]; rfl, by rw [hr2, hq2]; rfl⟩
    rw [plan_current_eq]
    simp [locateExisting, hl]

/-- An unlabeled pod instance with empty name, for the C10 witness. -/
def blankPod : PodmanPodInfo :=
  { id := "id-blank", name := "", status := "Running", created := 0
    labels := [], containers := [] }

/-- Witness node hosting only the unlabeled pod. -/
def blankNode : NodeState := mkNode "nBlank" (some [blankPod])

/-- Witness snapshot for the missing-metadata claim. -/
def blankState : ClusterState := ⟨[blankNode]⟩

/-- A Deployment resource with no name and no namespace. -/
def blankDep : Deployment := ⟨⟨none, none, none⟩⟩

/-- A Pod resource with no name and no namespace. -/
def blankPodRes : Pod := ⟨⟨none, none, none⟩⟩

/-- C10, witness: the metadata-less Deployment and Pod resources both locate
the unlabeled, name-less pod instance. -/
theorem missing_metadata_matches_unlabeled_pods_witness :
    (∃ ps n, (plan blankState (SupportedResources.Deployment blankDep)).current =
      some (ExistingResource.Deployment ⟨ps, n⟩) ∧ blankPod ∈ ps) ∧
    (∃ r n, (plan blankState (SupportedResources.Pod blankPodRes)).current =
      some (ExistingResource.Pod ⟨r, n⟩) ∧ r.name = "" ∧ r.«namespace» = "") :=
  ⟨(missing_metadata_matches_unlabeled_pods blankState blankNode blankPod
      (by decide) (by decide) (by decide) (by decide)).1 blankDep rfl rfl,
   (missing_metadata_matches_unlabeled_pods blankState blankNode blankPod
      (by decide) (by decide) (by decide) (by decide)).2 blankPodRes rfl rfl rfl⟩

/-! ### Dispatcher and batch fixtures -/

/-- Serializer that always succeeds with a fixed manifest text. -/
def okYaml : SerdeYaml := ⟨fun _ => Except.ok "manifest"⟩

/-- Serializer that always fails. -/
def errYaml : SerdeYaml := ⟨fun _ => Except.error "yaml: serialization failed"⟩

/-- Channel whose apply always succeeds with empty stderr. -/
def okClient : SshClient := ⟨fun _ => Except.ok ("applied", "")⟩

/-- Fleet with a channel for every node name. -/
def okConns : SshClients := ⟨fun _ => some okClient⟩

/-- Fleet with no channel for any node name. -/
def noFindConns : SshClients := ⟨fun _ => none⟩

/-- Channel whose apply succeeds with a multi-line stdout and non-empty stderr. -/
def nlClient : SshClient := ⟨fun _ => Except.ok ("line1\nline2", "warn")⟩

/-- Fleet resolving every node name to the multi-line channel. -/
def nlConns : SshClients := ⟨fun _ => some nlClient⟩

/-- One-node snapshot around the loaded node. -/
def oneNodeState : ClusterState := ⟨[loadedNode]⟩

/-- The empty snapshot. -/
def emptyState : ClusterState := ⟨[]⟩

lemma schedule_cons (yaml : SerdeYaml) (conns : SshClients) (state : ClusterState)
    (o : SupportedResources) (rest : List SupportedResources) :
    schedule yaml conns state (o :: rest) =
      match (scheduleOne yaml conns state o).result with
      | none => none
      | some r => (schedule yaml conns state rest).map fun rs => r :: rs := by
  cases o <;> rfl

/-! ### C3 -/

lemma scheduleOne_empty_snapshot (yaml : SerdeYaml) (conns : SshClients)
    (state : ClusterState) (object : SupportedResources) (s : String)
    (hser : yaml.to_string object = Except.ok s) (hnil : state.nodes = []) :
    scheduleOne yaml conns state object =
      { result := some { object := object, node_name := ""
                         status := Status.Error "failed to find schedulable node" }
        calls := [], errlogs := [] } := by
  have hnone := (plan_next_none_iff state object).mpr hnil
  simp [scheduleOne, hser, hnone]

/-- C3: the planner's target selection is absent exactly when the snapshot has
zero nodes; in that case dispatching one resource (that serializes) reports
the failed-to-find-schedulable-node error with an empty target node name, and
a batch over the empty snapshot still yields one such result per resource. -/
theorem next_absent_iff_empty_snapshot :
    (∀ (state : ClusterState) (object : SupportedResources),
      (plan state object).next = none ↔ state.nodes = []) ∧
    (∀ (yaml : SerdeYaml) (conns : SshClients) (state : ClusterState)
        (object : SupportedResources) (s : String),
      yaml.to_string object = Except.ok s → state.nodes = [] →
      scheduleOne yaml conns state object =
        { result := some { object := object, node_name := ""
                           status := Status.Error "failed to find schedulable node" }
          calls := [], errlogs := [] }) ∧
    (∀ (yaml : SerdeYaml) (conns : SshClients) (state : ClusterState)
        (objects : List SupportedResources),
      state.nodes = [] → (∀ o ∈ objects, ∃ s, yaml.to_string o = Except.ok s) →
      ∃ rs, schedule yaml conns state objects = some rs ∧
        rs.length = objects.length ∧
        ∀ r ∈ rs, r.node_name = "" ∧
          r.status = Status.Error "failed to find schedulable node") := by
  refine ⟨plan_next_none_iff, scheduleOne_empty_snapshot, ?_⟩
  intro yaml conns state objects hnil hser
  induction objects with
  | nil => exact ⟨[], rfl, rfl, by simp⟩
  | cons o rest ih =>
    obtain ⟨s, hs⟩ := hser o (by simp)
    obtain ⟨rs, hrs, hlen, hall⟩ := ih fun o' ho' => hser o' (by simp [ho'])
    refine ⟨{ object := o, node_name := ""
              status := Status.Error "failed to find schedulable node" } :: rs,
      ?_, by simp [hlen], ?_⟩
    · rw [schedule_cons, scheduleOne_empty_snapshot yaml conns state o s hs hnil, hrs]
      rfl
    · intro r hr
      rcases List.mem_cons.mp hr with rfl | hr
      · exact ⟨rfl, rfl⟩
      · exact hall r hr

/-- C3, witness at the empty snapshot with an always-successful serializer. -/
theorem next_absent_iff_empty_snapshot_witness :
    okYaml.to_string cexObj = Except.ok "manifest" ∧ emptyState.nodes = [] ∧
    scheduleOne okYaml okConns emptyState cexObj =
      { result := some { object := cexObj, node_name := ""
                         status := Status.Error "failed to find schedulable node" }
        calls := [], errlogs := [] } ∧
    ∃ rs, schedule okYaml okConns emptyState [cexObj] = some rs ∧
      rs.length = [cexObj].length ∧
      ∀ r ∈ rs, r.node_name = "" ∧
        r.status = Status.Error "failed to find schedulable node" :=
  ⟨rfl, rfl,
   next_absent_iff_empty_snapshot.2.1 okYaml okConns emptyState cexObj "manifest" rfl rfl,
   next_absent_iff_empty_snapshot.2.2 okYaml okConns emptyState [cexObj] rfl
     (fun o _ => ⟨"manifest", rfl⟩)⟩

/-! ### C4 -/

/-- C4: the batch scheduler walks the input list sequentially, dispatches each
resource exactly once, and returns one result per input resource in input
order; per-resource failures are just results, and (absent the dispatcher
panic treated in the fleet-contract claim) the batch call itself succeeds. -/
theorem batch_preserves_order_and_isolation (yaml : SerdeYaml) (conns : SshClients)
    (state : ClusterState) (objects : List SupportedResources)
    (h : ∀ o ∈ objects, ((scheduleOne yaml conns state o).result).isSome = true) :
    ∃ rs, schedule yaml conns state objects = some rs ∧
      objects.map (fun o => (scheduleOne yaml conns state o).result) =
        rs.map some := by
  induction objects with
  | nil => exact ⟨[], rfl, rfl⟩
  | cons o rest ih =>
    obtain ⟨r, hr⟩ := Option.isSome_iff_exists.mp (h o (by simp))
    obtain ⟨rs, hrs, hmap⟩ := ih fun o' ho' => h o' (by simp [ho'])
    refine ⟨r :: rs, ?_, by simp [hr, hmap]⟩
    rw [schedule_cons, hr, hrs]
    rfl

/-- Serializer that succeeds on Pods and fails on Deployments, to exhibit a
mid-batch failure. -/
def mixYaml : SerdeYaml :=
  ⟨fun o => match o with
    | SupportedResources.Pod _ => Except.ok "manifest"
    | SupportedResources.Deployment _ => Except.error "boom"⟩

/-- The `web` Deployment as a schedulable resource. -/
def depObjRes : SupportedResources := SupportedResources.Deployment depObj

/-- C4, witness: a three-element batch whose middle resource fails still
yields three results in input order, the middle one an error. -/
theorem batch_preserves_order_and_isolation_witness :
    (∀ o ∈ [cexObj, depObjRes, cexObj],
      ((scheduleOne mixYaml okConns oneNodeState o).result).isSome = true) ∧
    (scheduleOne mixYaml okConns oneNodeState depObjRes).result =
      some { object := depObjRes, node_name := "", status := Status.Error "boom" } ∧
    ∃ rs, schedule mixYaml okConns oneNodeState [cexObj, depObjRes, cexObj] = some rs ∧
      [cexObj, depObjRes, cexObj].map
        (fun o => (scheduleOne mixYaml okConns oneNodeState o).result) = rs.map some :=
  ⟨by decide, by decide,
   batch_preserves_order_and_isolation mixYaml okConns oneNodeState
     [cexObj, depObjRes, cexObj] (by decide)⟩

/-! ### C5 -/

/-- C5: when serialization fails, the dispatcher reports the serialization
error with an empty target node name and makes no Fleet call at all. -/
theorem serialization_failure_short_circuits (yaml : SerdeYaml) (conns : SshClients)
    (state : ClusterState) (object : SupportedResources) (err : String)
    (h : yaml.to_string object = Except.error err) :
    scheduleOne yaml conns state object =
      { result := some { object := object, node_name := "", status := Status.Error err }
        calls := [], errlogs := [] } := by
  simp [scheduleOne, h]

/-- C5, witness with the always-failing serializer. -/
theorem serialization_failure_short_circuits_witness :
    errYaml.to_string cexObj = Except.error "yaml: serialization failed" ∧
    scheduleOne errYaml okConns oneNodeState cexObj =
      { result := some { object := cexObj, node_name := ""
                         status := Status.Error "yaml: serialization failed" }
        calls := [], errlogs := [] } :=
  ⟨rfl, serialization_failure_short_circuits errYaml okConns oneNodeState cexObj
    "yaml: serialization failed" rfl⟩

/-! ### C6 -/

lemma escapeNewlines_no_newline (t : String) : Char.ofNat 10 ∉ (escapeNewlines t).data := by
  show Char.ofNat 10 ∉ t.data.foldr
    (fun c acc => if c = Char.ofNat 10 then Char.ofNat 92 :: Char.ofNat 110 :: acc else c :: acc) []
  induction t.data with
  | nil => simp
  | cons c cs ih =>
    by_cases hc : c = Char.ofNat 10
    · simp only [List.foldr_cons, if_pos hc]
      intro hmem
      rcases List.mem_cons.mp hmem with h1 | hmem
      · exact absurd h1 (by decide)
      rcases List.mem_cons.mp hmem with h2 | hmem
      · exact absurd h2 (by decide)
      · exact ih hmem
    · simp only [List.foldr_cons, if_neg hc]
      intro hmem
      rcases List.mem_cons.mp hmem with h1 | hmem
      · exact hc h1.symm
      · exact ih hmem

/-- C6: once a target node is resolved and its channel found, an apply success
yields `Scheduled` with stdout plus a parenthetical stderr suffix when stderr
is non-empty and line breaks escaped to the two-character backslash-n, an
apply failure yields `Error` with the failure message, and both results carry
the resolved target node's name; the escaped detail contains no line break. -/
theorem dispatch_outcome_formats_result (yaml : SerdeYaml) (conns : SshClients)
    (state : ClusterState) (object : SupportedResources) (s : String)
    (node : NodeState) (client : SshClient)
    (hs : yaml.to_string object = Except.ok s)
    (hn : (plan state object).next = some node)
    (hc : conns.find node.node_name = some client) :
    (∀ stdout stderr, client.apply_resource s = Except.ok (stdout, stderr) →
      (scheduleOne yaml conns state object).result =
        some { object := object, node_name := node.node_name
               status := Status.Scheduled (escapeNewlines
                 (stdout ++ if stderr.length > 0 then " ( stderr: " ++ stderr ++ " )" else "")) }) ∧
    (∀ err, client.apply_resource s = Except.error err →
      (scheduleOne yaml conns state object).result =
        some { object := object, node_name := node.node_name
               status := Status.Error err }) ∧
    (∀ t, Char.ofNat 10 ∉ (escapeNewlines t).data) := by
  refine ⟨?_, ?_, escapeNewlines_no_newline⟩
  · intro stdout stderr happ
    simp [scheduleOne, hs, hn, hc, happ]
  · intro err happ
    simp [scheduleOne, hs, hn, hc, happ]

/-- C6, witness: a multi-line stdout with non-empty stderr is flattened into
one line with the parenthetical stderr suffix, on the resolved node. -/
theorem dispatch_outcome_formats_result_witness :
    okYaml.to_string cexObj = Except.ok "manifest" ∧
    (plan oneNodeState cexObj).next = some loadedNode ∧
    nlConns.find loadedNode.node_name = some nlClient ∧
    (scheduleOne okYaml nlConns oneNodeState cexObj).result =
      some { object := cexObj, node_name := "node-2"
             status := Status.Scheduled "line1\\nline2 ( stderr: warn )" } := by
  refine ⟨rfl, by decide, rfl, ?_⟩
  have h := (dispatch_outcome_formats_result okYaml nlConns oneNodeState cexObj
    "manifest" loadedNode nlClient rfl (by decide) rfl).1 "line1\nline2" "warn" rfl
  rw [h]
  decide

/-! ### C7 -/

/-- C7, counterexample: a missing channel for the resolved target node (whose
name is in the snapshot) makes the dispatcher panic (`result = none`), and a
two-resource batch returns no results at all, so the violation is not fatal
for that one resource only. -/
theorem missing_channel_aborts_batch_counterexample :
    (plan oneNodeState cexObj).next = some loadedNode ∧
    loadedNode ∈ oneNodeState.nodes ∧
    noFindConns.find loadedNode.node_name = none ∧
    (scheduleOne okYaml noFindConns oneNodeState cexObj).result = none ∧
    schedule okYaml noFindConns oneNodeState [cexObj, cexObj] = none :=
  ⟨by decide, by decide, rfl, by decide, by decide⟩

/-- C7 (amended): a missing channel for the resolved target aborts the whole
batch call (the dispatcher panics and no results are returned); under the
precondition that every snapshot node has a channel, the channel-resolution
step never reaches its failure branch, for one dispatch and for whole batches. -/
theorem channel_resolution_never_fails :
    (∀ (yaml : SerdeYaml) (conns : SshClients) (state : ClusterState)
        (object : SupportedResources),
      (∀ n ∈ state.nodes, (conns.find n.node_name).isSome = true) →
      ((scheduleOne yaml conns state object).result).isSome = true) ∧
    (∀ (yaml : SerdeYaml) (conns : SshClients) (state : ClusterState)
        (objects : List SupportedResources),
      (∀ n ∈ state.nodes, (conns.find n.node_name).isSome = true) →
      (schedule yaml conns state objects).isSome = true) := by
  have hone : ∀ (yaml : SerdeYaml) (conns : SshClients) (state : ClusterState)
      (object : SupportedResources),
      (∀ n ∈ state.nodes, (conns.find n.node_name).isSome = true) →
      ((scheduleOne yaml conns state object).result).isSome = true := by
    intro yaml conns state object hch
    rcases hser : yaml.to_string object with err | s
    · simp [scheduleOne, hser]
    rcases hnext : (plan state object).next with _ | node
    · simp [scheduleOne, hser, hnext]
    have hmem : node ∈ state.nodes := by
      rw [plan_next_eq] at hnext
      rcases foldl_foldStep_mem state.nodes _ node hnext with hacc | hm
      · exact existingNode_mem state object node hacc
      · exact hm
    obtain ⟨client, hcl⟩ := Option.isSome_iff_exists.mp (hch node hmem)
    rcases happ : client.apply_resource s with err | ⟨stdout, stderr⟩ <;>
      simp [scheduleOne, hser, hnext, hcl, happ]
  refine ⟨hone, ?_⟩
  intro yaml conns state objects hch
  induction objects with
  | nil => rfl
  | cons o rest ih =>
    rw [schedule_cons]
    obtain ⟨r, hr⟩ := Option.isSome_iff_exists.mp (hone yaml conns state o hch)
    obtain ⟨rs, hrs⟩ := Option.isSome_iff_exists.mp ih
    rw [hr, hrs]
    rfl

/-- C7 (amended), witness with a fleet holding a channel for every node. -/
theorem channel_resolution_never_fails_witness :
    (∀ n ∈ oneNodeState.nodes, (okConns.find n.node_name).isSome = true) ∧
    ((scheduleOne okYaml okConns oneNodeState cexObj).result).isSome = true ∧
    (schedule okYaml okConns oneNodeState [cexObj]).isSome = true :=
  ⟨by decide,
   channel_resolution_never_fails.1 okYaml okConns oneNodeState cexObj (by decide),
   channel_resolution_never_fails.2 okYaml okConns oneNodeState [cexObj] (by decide)⟩

/-! ### C8 -/

/-- C8: the remove-previous-instance step is a stub: it performs no Fleet
action and unconditionally reports success, so a cleanup failure never occurs
(no cleanup log line is ever emitted) and deleting the cleanup step entirely
leaves every dispatch outcome unchanged. -/
theorem cleanup_stub_never_changes_status :
    (∀ (conns : SshClients) (resource : ExistingResource),
      remove_existing conns resource = Except.ok ()) ∧
    (∀ (yaml : SerdeYaml) (conns : SshClients) (state : ClusterState)
        (object : SupportedResources),
      (scheduleOne yaml conns state object).errlogs = []) ∧
    (∀ (yaml : SerdeYaml) (conns : SshClients) (state : ClusterState)
        (object : SupportedResources),
      scheduleOne yaml conns state object =
        scheduleOneSkipCleanup yaml conns state object) := by
  have hmain : ∀ (yaml : SerdeYaml) (conns : SshClients) (state : ClusterState)
      (object : SupportedResources),
      scheduleOne yaml conns state object =
        scheduleOneSkipCleanup yaml conns state object := by
    intro yaml conns state object
    rcases hser : yaml.to_string object with err | s
    · simp [scheduleOne, scheduleOneSkipCleanup, hser]
    rcases hnext : (plan state object).next with _ | node
    · simp [scheduleOne, scheduleOneSkipCleanup, hser, hnext]
    rcases hcur : (plan state object).current with _ | e <;>
      rcases hcl : conns.find node.node_name with _ | client
    · simp [scheduleOne, scheduleOneSkipCleanup, hser, hnext, hcur, hcl]
    · rcases happ : client.apply_resource s with err | ⟨o1, o2⟩ <;>
        simp [scheduleOne, scheduleOneSkipCleanup, hser, hnext, hcur, hcl, happ]
    · simp [scheduleOne, scheduleOneSkipCleanup, hser, hnext, hcur, hcl,
        remove_existing]
    · rcases happ : client.apply_resource s with err | ⟨o1, o2⟩ <;>
        simp [scheduleOne, scheduleOneSkipCleanup, hser, hnext, hcur, hcl, happ,
          remove_existing]
  refine ⟨fun _ _ => rfl, ?_, hmain⟩
  intro yaml conns state object
  rw [hmain yaml conns state object]
  rcases hser : yaml.to_string object with err | s
  · simp [scheduleOneSkipCleanup, hser]
  rcases hnext : (plan state object).next with _ | node
  · simp [scheduleOneSkipCleanup, hser, hnext]
  rcases hcl : conns.find node.node_name with _ | client
  · simp [scheduleOneSkipCleanup, hser, hnext, hcl]
  rcases happ : client.apply_resource s with err | ⟨o1, o2⟩ <;>
    simp [scheduleOneSkipCleanup, hser, hnext, hcl, happ]

end Skate
